import Mathlib

/-!
Shallow embedding of `src/main.py` (a roster scraper for Japanese municipal
assembly attendance lists) and verification of the specification claims.

Strings are modelled as `String` / `List Char`; the Python functions
`replace_empty_line`, `remove_number_honorific`, `parse` and the
encoding-reconciliation policy of `det_encoding` are translated below.
Python exceptions (`AttributeError` on a failed regex search, the explicit
`ValueError`) become `Except` errors.
-/

namespace Scra

/-- A member record, Python's `{'number': …, 'name': …}` dict. -/
structure MemberRecord where
  number : String
  name : String
deriving DecidableEq, Repr

/-- Failure modes of the pipeline.  In Python both parse failures surface as
`AttributeError` (calling `.start()` / `.end()` on a `None` regex result);
here they are distinguished by the site that raises. -/
inductive ParseErr where
  /-- `re.search(r'出席.*', …)` returned `None` (main.py line 55-56). -/
  | noSection
  /-- `re.search(r'[0-9|０-９]+番', …)` returned `None` inside
  `remove_number_honorific` (main.py line 28-29). -/
  | malformedFragment
deriving DecidableEq, Repr

instance {ε α : Type _} [DecidableEq ε] [DecidableEq α] : DecidableEq (Except ε α) :=
  fun x y =>
    match x, y with
    | .ok a, .ok b => decidable_of_iff (a = b) (by simp)
    | .error a, .error b => decidable_of_iff (a = b) (by simp)
    | .ok _, .error _ => .isFalse (by simp)
    | .error _, .ok _ => .isFalse (by simp)

/-- Python `s.replace('\r\n', '\n')` (main.py line 16): left-to-right,
non-overlapping replacement of each CR LF pair by LF. -/
def pyReplaceCRLF : List Char → List Char
  | '\r' :: '\n' :: t => '\n' :: pyReplaceCRLF t
  | c :: t => c :: pyReplaceCRLF t
  | [] => []

/-- Python `re.sub(r'\n{2,}', '\n', s)` (main.py line 19): every maximal run
of two or more LF collapses to a single LF.  The boolean argument records
whether the previously emitted character was an LF. -/
def collapseAux : Bool → List Char → List Char
  | _, [] => []
  | prevLF, c :: t =>
    if c = '\n' then
      if prevLF then collapseAux true t else '\n' :: collapseAux true t
    else c :: collapseAux false t

/-- `re.sub(r'\n{2,}', '\n', s)` as a function on character lists. -/
def collapseLF (l : List Char) : List Char := collapseAux false l

/-- `replace_empty_line` (main.py lines 10-20): canonicalize CR LF to LF,
then collapse runs of consecutive LF. -/
def replace_empty_line (s : String) : String :=
  ⟨collapseLF (pyReplaceCRLF s.data)⟩

/-- `p` is an initial segment of `l` (character-wise). -/
def startsWith : List Char → List Char → Bool
  | _, [] => true
  | [], _ :: _ => false
  | c :: cs, p :: ps => c = p && startsWith cs ps

/-- `l` ends with `p`. -/
def endsWith (l p : List Char) : Bool := startsWith l.reverse p.reverse

/-- ASCII space or the full-width space `'　'` (U+3000): the class `( |　)`
of `br_line_pattern` (main.py line 50). -/
def isSp (c : Char) : Bool := c = ' ' || c = '　'

/-- The alternation `<(br|BR|br /|BR /)>` of `br_line_pattern`
(main.py line 50).  Returns the length of the literal tag matched at the
head of the list, if any. -/
def tryTag (l : List Char) : Option Nat :=
  if startsWith l ['<', 'b', 'r', '>'] then some 4
  else if startsWith l ['<', 'B', 'R', '>'] then some 4
  else if startsWith l ['<', 'b', 'r', ' ', '/', '>'] then some 6
  else if startsWith l ['<', 'B', 'R', ' ', '/', '>'] then some 6
  else none

/-- One attempted match of `br_line_pattern` = `( |　)*<(br|BR|br /|BR /)>( |　)*`
at the head of `l`: greedily eat spaces, require one of the four literal
tags, greedily eat trailing spaces; return the unconsumed rest on success.
(The leading `( |　)*` cannot usefully backtrack: matching fewer spaces
would put `<` against a space character.) -/
def matchBrAt (l : List Char) : Option (List Char) :=
  let l1 := l.dropWhile isSp
  match tryTag l1 with
  | some n => some ((l1.drop n).dropWhile isSp)
  | none => none

/-- `re.sub(br_line_pattern, '', html_string)` (main.py lines 50-51): scan
left to right, deleting every match of the pattern.  Each successful match
consumes at least the four tag characters, so fuel `l.length` always
suffices; the fuel-exhausted branch is unreachable. -/
def stripBrAux : Nat → List Char → List Char
  | 0, l => l
  | _, [] => []
  | fuel + 1, c :: cs =>
    match matchBrAt (c :: cs) with
    | some rest => stripBrAux fuel rest
    | none => c :: stripBrAux fuel cs

/-- The decorative line-break stripping step of `parse` (main.py lines 50-51). -/
def stripBr (l : List Char) : List Char := stripBrAux l.length l

/-- String-level wrapper for the `<br>`-stripping step (main.py lines 50-51). -/
def strip_br (s : String) : String := ⟨stripBr s.data⟩

/-- Index of the first occurrence of `pat` as a contiguous substring,
i.e. the `.start()` of Python `re.search` for a literal pattern. -/
def findSubstr (pat : List Char) : List Char → Option Nat
  | [] => if startsWith [] pat then some 0 else none
  | c :: t =>
    if startsWith (c :: t) pat then some 0
    else (findSubstr pat t).map (· + 1)

/-- Python `s.split('\n')`: split at every LF, keeping empty pieces. -/
def splitLF : List Char → List (List Char)
  | [] => [[]]
  | '\n' :: t => [] :: splitLF t
  | c :: t =>
    match splitLF t with
    | [] => [[c]]
    | r :: rs => (c :: r) :: rs

/-- The character class `[0-9|０-９]` of main.py line 28: ASCII digits, the
literal `'|'` (a `|` inside a regex character class is an ordinary
character), and the full-width digits U+FF10–U+FF19. -/
def isNumClass (c : Char) : Bool :=
  c.isDigit || c = '|' ||
    (c = '０' || c = '１' || c = '２' || c = '３' || c = '４' ||
     c = '５' || c = '６' || c = '７' || c = '８' || c = '９')

/-- `re.search(r'[0-9|０-９]+番', s)` (main.py line 28), returning
`(start, end)` of the leftmost match.  At a given start the run of class
characters is maximal and must be directly followed by `'番'`; backtracking
to a shorter run cannot succeed because `'番'` is not in the class. -/
def searchNumBan : List Char → Option (Nat × Nat)
  | [] => none
  | c :: t =>
    if ((c :: t).takeWhile isNumClass).length ≠ 0 ∧
        ((c :: t).drop ((c :: t).takeWhile isNumClass).length).head? = some '番'
    then some (0, ((c :: t).takeWhile isNumClass).length + 1)
    else (searchNumBan t).map (fun p => (p.1 + 1, p.2 + 1))

/-- `mojimoji.zen_to_han` (main.py line 29) restricted to the characters the
class `[0-9|０-９]` can produce: full-width digits become ASCII digits,
ASCII digits and `'|'` are unchanged. -/
def zen_to_han_char (c : Char) : Char :=
  if c = '０' then '0' else if c = '１' then '1' else if c = '２' then '2'
  else if c = '３' then '3' else if c = '４' then '4'
  else if c = '５' then '5' else if c = '６' then '6'
  else if c = '７' then '7' else if c = '８' then '8'
  else if c = '９' then '9' else c

/-- The honorific-stripping step of `remove_number_honorific`
(main.py lines 32-35): drop a trailing `議員` or `さん` (two characters),
else a trailing `君` (one character). -/
def stripHonorific (name : List Char) : List Char :=
  if endsWith name ['議', '員'] || endsWith name ['さ', 'ん'] then
    name.take (name.length - 2)
  else if endsWith name ['君'] then name.take (name.length - 1)
  else name

/-- `remove_number_honorific` (main.py lines 23-37) on a character list:
search `[0-9|０-９]+番`; on failure Python raises `AttributeError`
(modelled as `malformedFragment`); on success, `number` is the match minus
the final `'番'`, passed through `zen_to_han`, and `name` is everything
after the match, with at most one honorific suffix stripped. -/
def remove_number_honorific_core (l : List Char) : Except ParseErr MemberRecord :=
  match searchNumBan l with
  | none => .error .malformedFragment
  | some (s, e) =>
    .ok { number := ⟨((l.drop s).take (e - 1 - s)).map zen_to_han_char⟩,
          name := ⟨stripHonorific (l.drop e)⟩ }

/-- `remove_number_honorific` on a `String`. -/
def remove_number_honorific (person_string : String) : Except ParseErr MemberRecord :=
  remove_number_honorific_core person_string.data

/-- `member.replace('　', '').replace(' ', '')` (main.py line 74): delete
every full-width and ASCII space. -/
def despace (l : List Char) : List Char :=
  l.filter (fun c => !(c = '　' || c = ' '))

/-- `re.fullmatch(r'　*(―|－)+', row)` (main.py line 60): optional
full-width spaces followed by one or more horizontal-bar (U+2015) or
full-width-hyphen (U+FF0D) characters, and nothing else. -/
def isDashLine (row : List Char) : Bool :=
  let t := row.dropWhile (fun c => c = '　')
  !t.isEmpty && t.all (fun c => c = '―' || c = '－')

/-- Python `row.rfind('番')`: index of the last occurrence, if any. -/
def rfindChar (c : Char) : List Char → Option Nat
  | [] => none
  | x :: t =>
    match rfindChar c t with
    | some i => some (i + 1)
    | none => if x = c then some 0 else none

/-- The row-classification body (main.py lines 63-72).  `count == 2`: split
at `row.rfind('番') - 2` using Python slice semantics (a negative index
counts from the end, clamped at 0).  `count == 1`: the whole row is one
fragment.  Otherwise (`count >= 3` inside the loop): a diagnostic is
printed and the row contributes nothing. -/
def fragmentsOfRow (row : List Char) : List (List Char) :=
  let n := row.count '番'
  if n = 2 then
    let pivot : Int := ((rfindChar '番' row).getD 0 : Int) - 2
    let p : Nat := (if pivot < 0 then (row.length : Int) + pivot else pivot).toNat
    [row.take p, row.drop p]
  else if n = 1 then [row]
  else []

/-- The row loop of `parse` (main.py lines 59-72): stop at the first row
that lacks `'番'` or is a dash-only horizontal rule; otherwise collect the
row's fragments and continue. -/
def collectFragments : List (List Char) → List (List Char)
  | [] => []
  | row :: rest =>
    if !(row.contains '番') || isDashLine row then []
    else fragmentsOfRow row ++ collectFragments rest

/-- Effectful `List.map` over `Except`, the list comprehension of
main.py lines 74-75 (Python propagates the first raised exception). -/
def mapExcept (g : α → Except ε β) : List α → Except ε (List β)
  | [] => .ok []
  | a :: t =>
    match g a with
    | .error e => .error e
    | .ok b =>
      match mapExcept g t with
      | .error e => .error e
      | .ok bs => .ok (b :: bs)

/-- The two format-normalization steps of `parse` (main.py lines 50-52):
strip decorative `<br>` markers, then canonicalize line endings and
collapse blank lines. -/
def normalizeDoc (s : String) : String := replace_empty_line ⟨stripBr s.data⟩

/-- `parse` (main.py lines 40-76): normalize, anchor at the first `出席`
(failure of `re.search(r'出席.*', …)` is the Python `AttributeError`,
modelled as `noSection`), drop the header row, collect fragments row by
row, then despace and parse each fragment. -/
def parse (html_string : String) : Except ParseErr (List MemberRecord) :=
  match findSubstr ['出', '席'] (normalizeDoc html_string).data with
  | none => .error ParseErr.noSection
  | some i =>
    mapExcept (fun f => remove_number_honorific_core (despace f))
      (collectFragments ((splitLF ((normalizeDoc html_string).data.drop i)).drop 1))

/-- Python `.lower()` restricted to the ASCII labels the encoding detectors
produce (main.py lines 93 and 97). -/
def lowerAscii (s : String) : String :=
  ⟨s.data.map fun c => if 'A' ≤ c ∧ c ≤ 'Z' then Char.ofNat (c.toNat + 32) else c⟩

/-- The message of the `ValueError` raised at main.py line 105. -/
def unsupportedMsg : String := "現在扱えない文字コードで書かれたファイル："

/-- The encoding-reconciliation policy of `det_encoding`
(main.py lines 99-106), with the two detector outputs as parameters (the
detector libraries and file reads are external).  Returns the list of
warnings written to stderr — each warning carries the two lowercased
candidate labels (line 101) — together with either the chosen label or the
payload of the raised `ValueError`, which is the fixed message and the
file path (line 105). -/
def det_encoding (chardet_res nkf_res file_path : String) :
    List (String × String) × Except (String × String) String :=
  if lowerAscii chardet_res ≠ lowerAscii nkf_res then
    if lowerAscii chardet_res = "cp932" ∨ lowerAscii nkf_res = "cp932" then
      ([(lowerAscii chardet_res, lowerAscii nkf_res)], .ok "CP932")
    else
      ([(lowerAscii chardet_res, lowerAscii nkf_res)],
       .error (unsupportedMsg, file_path))
  else ([], .ok (lowerAscii chardet_res))

/-- `l` contains the two-character substring CR LF. -/
def hasCRLF : List Char → Bool
  | [] => false
  | c :: t => (c == '\r' && t.head? == some '\n') || hasCRLF t

/-- `l` contains the two-character substring LF LF (an empty line). -/
def hasLFLF : List Char → Bool
  | [] => false
  | c :: t => (c == '\n' && t.head? == some '\n') || hasLFLF t

/-- `l` contains the three-character substring CR CR LF. -/
def hasCRCRLF : List Char → Bool
  | [] => false
  | c :: t => (c == '\r' && t.head? == some '\r' && t.tail.head? == some '\n') || hasCRCRLF t

end Scra

namespace Scra

/-- C1: the end-to-end scenario.  A document with a `出席議員` header line,
then `1番山田花子さん`, then a blank line (two consecutive line breaks),
then `２番鈴木一郎君`, then a horizontal-rule line `――――`, then unrelated
trailing content, parses to exactly the two records
`{number := "1", name := "山田花子"}` and `{number := "2", name := "鈴木一郎"}`,
in that order. -/
theorem parse_end_to_end :
    parse "出席議員\n1番山田花子さん\n\n２番鈴木一郎君\n――――\n議会のその後の無関係な本文"
      = .ok [{ number := "1", name := "山田花子" },
             { number := "2", name := "鈴木一郎" }] := by decide

/-- C2, counterexample: the row `1番` contains exactly one occurrence of
`番` with a digit immediately before it, yet the record `parse` produces
from it has an empty `name` field, contradicting the claimed invariant
that both fields are non-empty. -/
theorem parse_empty_name_cex :
    parse "出席議員\n1番" = .ok [{ number := "1", name := "" }] := by decide

/-- C5, counterexample: parsing the fragment `３番佐藤くん` yields
`{number := "3", name := "佐藤くん"}`, not `{number := "3", name := "佐藤"}`:
the code strips only `議員`, `さん` and `君`, never the two-character
informal suffix `くん`. -/
theorem kun_not_stripped_cex :
    remove_number_honorific "３番佐藤くん" = .ok { number := "3", name := "佐藤くん" }
      ∧ ("佐藤くん" : String) ≠ "佐藤" := by decide

/-- C5, amended: the full-width digit is converted, but the trailing `くん`
is kept; the suffixes actually stripped are `議員`, `さん` and the
single character `君`. -/
theorem kun_kept_suffixes_stripped :
    remove_number_honorific "３番佐藤くん" = .ok { number := "3", name := "佐藤くん" }
      ∧ remove_number_honorific "３番佐藤議員" = .ok { number := "3", name := "佐藤" }
      ∧ remove_number_honorific "３番佐藤さん" = .ok { number := "3", name := "佐藤" }
      ∧ remove_number_honorific "３番佐藤君" = .ok { number := "3", name := "佐藤" } := by
  decide

/-- C6, counterexample: the character class of main.py line 28 is
`[0-9|０-９]`, which admits the literal `'|'`; per-fragment parsing
succeeds on `|番山田` and produces the number field `"|"`, which is not an
ASCII digit. -/
theorem number_pipe_cex :
    remove_number_honorific "|番山田" = .ok { number := "|", name := "山田" }
      ∧ ('|').isDigit = false := by decide

/-- C7, counterexample: on `"\r\r\n"` the line-ending canonicalization plus
blank-line collapse is not idempotent: one application leaves `"\r\n"`
(the replacement of the inner CR LF re-creates a CR LF with the preceding
CR), a second application yields `"\n"`. -/
theorem replace_empty_line_not_idem_cex :
    replace_empty_line (replace_empty_line "\r\r\n") ≠ replace_empty_line "\r\r\n" := by
  decide

/-- C8, counterexample: for the document `出席\n番X` the row `番X` contains
`番`, so row classification passes the fragment `番X` to per-fragment
parsing, where `[0-9|０-９]+番` has no match (no digit before `番`): the
`MalformedFragment` branch is reachable within the pipeline. -/
theorem malformed_reachable_cex :
    parse "出席\n番X" = .error ParseErr.malformedFragment := by decide

/-- C8, amended: row classification does not guarantee a number-marker
match; the `MalformedFragment` branch is reachable.  Here the count-2 split
of the row `A番1番B` (pivot `rfind('番') - 2 = 1`) even passes the
fragment `A`, which contains no `番` at all. -/
theorem malformed_reachable_from_split :
    parse "出席\nA番1番B" = .error ParseErr.malformedFragment := by decide

/-- C9, counterexample: the substitution of main.py lines 50-51 is not
anchored to whole lines — the marker inside the content line `a<br>b` is
removed — and it is not case-insensitive: the spelling `<Br>` is left in
place. -/
theorem strip_br_cex :
    strip_br "a<br>b" = "ab" ∧ strip_br "x<Br>y" = "x<Br>y" := by decide

/-- C9, amended: the step deletes every occurrence, anywhere in the text,
of one of the four literal spellings `<br>`, `<BR>`, `<br />`, `<BR />`
together with the adjacent ASCII/full-width spaces; other casings such as
`<Br>` and the spaceless self-closing `<br/>` are not removed. -/
theorem strip_br_literal_spellings :
    strip_br " <br> " = "" ∧ strip_br "　<br>　" = ""
      ∧ strip_br "a<br>b" = "ab" ∧ strip_br "e<BR>f" = "ef"
      ∧ strip_br "c<br />d" = "cd" ∧ strip_br "a<BR />b" = "ab"
      ∧ strip_br "x<Br>y" = "x<Br>y" ∧ strip_br "g<br/>h" = "g<br/>h" := by decide

/-- C3, counterexample: on the conflicting detector pair
`("shift_jis", "utf-8")` the code raises the `ValueError` instead of
preferring `shift_jis` — only the exact label `cp932` is special-cased
(main.py line 102); and on `("cp932", "utf-8")` it returns the uppercase
literal `"CP932"` (line 103), not a canonical lowercase label. -/
theorem det_encoding_cex :
    det_encoding "shift_jis" "utf-8" "a.html"
        = ([("shift_jis", "utf-8")], .error (unsupportedMsg, "a.html"))
      ∧ det_encoding "CP932" "UTF-8" "a.html" = ([("cp932", "utf-8")], .ok "CP932")
      ∧ ("CP932" : String) ≠ "cp932" := by decide

/-- C4, counterexample: when the lowercased labels conflict and neither is
`cp932`, the raised `ValueError` carries the fixed message and the file
path (main.py line 105), not the two candidate labels; the labels appear
only in the stderr warning. -/
theorem unsupported_payload_cex :
    det_encoding "utf-8" "euc-jp" "b.html"
        = ([("utf-8", "euc-jp")], .error (unsupportedMsg, "b.html"))
      ∧ (unsupportedMsg, "b.html") ≠ (("utf-8" : String), ("euc-jp" : String)) := by
  decide

/-- C10, counterexample: the raw document `出<br>席\n1番山田君` contains no
occurrence of `出席`, yet `parse` returns a roster: the `<br>`-stripping
step glues `出` and `席` together before the section search runs. -/
theorem parse_no_marker_cex :
    findSubstr ['出', '席'] "出<br>席\n1番山田君".data = none
      ∧ parse "出<br>席\n1番山田君" = .ok [{ number := "1", name := "山田" }] := by
  decide

end Scra

namespace Scra

theorem collapseAux_false_head (l : List Char) : (collapseAux false l).head? = l.head? := by
  cases l with
  | nil => rfl
  | cons c t =>
    by_cases hc : c = '\n'
    · subst hc; simp [collapseAux]
    · simp [collapseAux, hc]

theorem collapseAux_true_head (l : List Char) : (collapseAux true l).head? ≠ some '\n' := by
  induction l with
  | nil => simp [collapseAux]
  | cons c t ih =>
    by_cases hc : c = '\n'
    · subst hc; simpa [collapseAux] using ih
    · simp [collapseAux, hc]

theorem pyReplaceCRLF_of_no_crlf (l : List Char) (h : hasCRLF l = false) :
    pyReplaceCRLF l = l := by
  induction l using pyReplaceCRLF.induct with
  | case1 t ih => simp [hasCRLF] at h
  | case2 c t hne ih =>
    rw [pyReplaceCRLF.eq_2 c t hne]
    simp only [hasCRLF, Bool.or_eq_false_iff] at h
    rw [ih h.2]
  | case3 => rfl

theorem collapseAux_of_no_lflf (l : List Char) (h : hasLFLF l = false) :
    ∀ b : Bool, (b = true → l.head? ≠ some '\n') → collapseAux b l = l := by
  induction l with
  | nil => intro b _; rfl
  | cons c t ih =>
    intro b hb
    simp only [hasLFLF, Bool.or_eq_false_iff, Bool.and_eq_false_iff] at h
    by_cases hc : c = '\n'
    · subst hc
      have hb' : b = false := by
        cases b with
        | false => rfl
        | true => exact absurd rfl (hb rfl)
      subst hb'
      have hth : t.head? ≠ some '\n' := by
        rcases h.1 with h1 | h1
        · exact absurd h1 (by simp)
        · simpa using h1
      simp only [collapseAux, if_pos rfl, if_neg Bool.false_ne_true]
      rw [ih h.2 true (fun _ => hth), if_pos trivial]
    · simp only [collapseAux, if_neg hc]
      rw [ih h.2 false (by simp)]

theorem hasLFLF_collapseAux (l : List Char) : ∀ b : Bool, hasLFLF (collapseAux b l) = false := by
  induction l with
  | nil => intro b; rfl
  | cons c t ih =>
    intro b
    by_cases hc : c = '\n'
    · subst hc
      cases b with
      | true =>
        simp only [collapseAux, if_pos rfl, if_pos rfl]
        exact ih true
      | false =>
        simp only [collapseAux, if_pos rfl, if_neg Bool.false_ne_true]
        simp only [hasLFLF, Bool.or_eq_false_iff, Bool.and_eq_false_iff]
        refine ⟨Or.inr ?_, ih true⟩
        simpa using collapseAux_true_head t
    · simp only [collapseAux, if_neg hc]
      simp only [hasLFLF, Bool.or_eq_false_iff, Bool.and_eq_false_iff]
      exact ⟨Or.inl (by simpa using hc), ih false⟩

theorem hasCRLF_collapseAux (l : List Char) (h : hasCRLF l = false) :
    ∀ b : Bool, hasCRLF (collapseAux b l) = false := by
  induction l with
  | nil => intro b; rfl
  | cons c t ih =>
    intro b
    simp only [hasCRLF, Bool.or_eq_false_iff, Bool.and_eq_false_iff] at h
    by_cases hc : c = '\n'
    · subst hc
      cases b with
      | true =>
        simp only [collapseAux, if_pos rfl, if_pos rfl]
        exact ih h.2 true
      | false =>
        simp only [collapseAux, if_pos rfl, if_neg Bool.false_ne_true]
        simp only [hasCRLF, Bool.or_eq_false_iff, Bool.and_eq_false_iff]
        exact ⟨Or.inl (by decide), ih h.2 true⟩
    · simp only [collapseAux, if_neg hc]
      simp only [hasCRLF, Bool.or_eq_false_iff, Bool.and_eq_false_iff]
      refine ⟨?_, ih h.2 false⟩
      by_cases hr : c = '\r'
      · subst hr
        rcases h.1 with h1 | h1
        · exact absurd h1 (by simp)
        · refine Or.inr ?_
          rw [collapseAux_false_head t]
          exact h1
      · exact Or.inl (by simpa using hr)

theorem hasCRLF_pyReplaceCRLF (l : List Char) (h : hasCRCRLF l = false) :
    hasCRLF (pyReplaceCRLF l) = false := by
  induction l using pyReplaceCRLF.induct with
  | case1 t ih =>
    simp only [hasCRCRLF, Bool.or_eq_false_iff, Bool.and_eq_false_iff] at h
    rw [show pyReplaceCRLF ('\r' :: '\n' :: t) = '\n' :: pyReplaceCRLF t from rfl]
    simp only [hasCRLF, Bool.or_eq_false_iff, Bool.and_eq_false_iff]
    refine ⟨Or.inl (by decide), ?_⟩
    apply ih
    exact h.2.2
  | case2 c t hne ih =>
    rw [pyReplaceCRLF.eq_2 c t hne]
    simp only [hasCRCRLF, Bool.or_eq_false_iff, Bool.and_eq_false_iff] at h
    simp only [hasCRLF, Bool.or_eq_false_iff, Bool.and_eq_false_iff]
    refine ⟨?_, ih h.2⟩
    by_cases hr : c = '\r'
    · subst hr
      refine Or.inr ?_
      cases t with
      | nil => decide
      | cons d u =>
        by_cases hd : d = '\n'
        · exact absurd (hne u rfl (by rw [hd])) (fun f => f)
        · by_cases hdr : d = '\r'
          · subst hdr
            cases u with
            | nil => decide
            | cons e v =>
              by_cases he : e = '\n'
              · subst he
                rcases h.1 with h1 | h1
                · rcases h1 with h1 | h1 <;> exact absurd h1 (by simp)
                · exact absurd h1 (by simp)
              · rw [pyReplaceCRLF.eq_2 '\r' (e :: v)
                  (by intro w _ hw; exact he (by injection hw))]
                simp
          · rw [pyReplaceCRLF.eq_2 d u (fun w hw _ => hdr hw)]
            simp [hd]
    · exact Or.inl (by simpa using hr)
  | case3 => rfl

/-- C7, amended: the step is idempotent on every input without the
three-character substring CR CR LF. -/
theorem replace_empty_line_idem (s : String) (h : hasCRCRLF s.data = false) :
    replace_empty_line (replace_empty_line s) = replace_empty_line s := by
  unfold replace_empty_line collapseLF
  congr 1
  have h1 : hasCRLF (collapseAux false (pyReplaceCRLF s.data)) = false :=
    hasCRLF_collapseAux _ (hasCRLF_pyReplaceCRLF _ h) false
  rw [pyReplaceCRLF_of_no_crlf _ h1]
  exact collapseAux_of_no_lflf _ (hasLFLF_collapseAux _ false) false (by simp)

/-- C7, witness for the amended idempotence theorem at a concrete input. -/
theorem replace_empty_line_idem_witness :
    replace_empty_line (replace_empty_line "a\r\nb\n\nc") = replace_empty_line "a\r\nb\n\nc" :=
  replace_empty_line_idem "a\r\nb\n\nc" (by decide)

end Scra

namespace Scra

theorem take_len_takeWhile (p : Char → Bool) (l : List Char) :
    l.take (l.takeWhile p).length = l.takeWhile p := by
  induction l with
  | nil => rfl
  | cons c t ih =>
    by_cases h : p c
    · simp [List.takeWhile_cons_of_pos h, List.take_succ_cons, ih]
    · simp [List.takeWhile_cons_of_neg h]

theorem searchNumBan_spec (l : List Char) :
    ∀ s e, searchNumBan l = some (s, e) →
      (l.drop s).take (e - 1 - s) = (l.drop s).takeWhile isNumClass ∧
      ((l.drop s).takeWhile isNumClass).length ≠ 0 := by
  induction l with
  | nil => intro s e h; simp [searchNumBan] at h
  | cons c t ih =>
    intro s e h
    rw [searchNumBan] at h
    split at h
    · rename_i hcond
      rw [Option.some.injEq, Prod.mk.injEq] at h
      obtain ⟨hs, he⟩ := h
      subst hs; subst he
      simp only [List.drop_zero, Nat.add_sub_cancel, Nat.sub_zero]
      exact ⟨take_len_takeWhile _ _, hcond.1⟩
    · rw [Option.map_eq_some'] at h
      obtain ⟨⟨s', e'⟩, hst, heq⟩ := h
      rw [Prod.mk.injEq] at heq
      obtain ⟨hs, he⟩ := heq
      subst hs; subst he
      have harith : e' + 1 - 1 - (s' + 1) = e' - 1 - s' := by omega
      rw [List.drop_succ_cons, harith]
      exact ih s' e' hst

theorem zen_class (c : Char) (h : isNumClass c = true) :
    (zen_to_han_char c).isDigit = true ∨ zen_to_han_char c = '|' := by
  simp only [isNumClass, Bool.or_eq_true, decide_eq_true_eq] at h
  unfold zen_to_han_char
  split_ifs with h0 h1 h2 h3 h4 h5 h6 h7 h8 h9
  · left; decide
  · left; decide
  · left; decide
  · left; decide
  · left; decide
  · left; decide
  · left; decide
  · left; decide
  · left; decide
  · left; decide
  · tauto

theorem remove_core_ok (l : List Char) (r : MemberRecord)
    (h : remove_number_honorific_core l = .ok r) :
    r.number.data ≠ [] ∧ ∀ c ∈ r.number.data, c.isDigit = true ∨ c = '|' := by
  rw [remove_number_honorific_core] at h
  split at h
  · exact absurd h (by simp)
  · rename_i s e hse
    rw [Except.ok.injEq] at h
    subst h
    obtain ⟨htake, hlen⟩ := searchNumBan_spec l s e hse
    constructor
    · show (((l.drop s).take (e - 1 - s)).map zen_to_han_char) ≠ []
      rw [htake]
      simp only [ne_eq, List.map_eq_nil_iff]
      intro hnil
      exact hlen (by rw [hnil]; rfl)
    · show ∀ c ∈ ((l.drop s).take (e - 1 - s)).map zen_to_han_char, _
      intro c hc
      rw [htake] at hc
      rw [List.mem_map] at hc
      obtain ⟨d, hd, hdc⟩ := hc
      subst hdc
      exact zen_class d (List.mem_takeWhile_imp hd)

theorem mapExcept_mem {α β ε : Type _} (g : α → Except ε β) :
    ∀ (l : List α) (res : List β), mapExcept g l = .ok res →
      ∀ b ∈ res, ∃ a ∈ l, g a = .ok b := by
  intro l
  induction l with
  | nil =>
    intro res h b hb
    rw [mapExcept, Except.ok.injEq] at h
    subst h
    simp at hb
  | cons a t ih =>
    intro res h b hb
    rw [mapExcept] at h
    split at h
    · exact absurd h (by simp)
    · rename_i b' hb'
      split at h
      · exact absurd h (by simp)
      · rename_i bs hbs
        rw [Except.ok.injEq] at h
        subst h
        rcases List.mem_cons.mp hb with hbb | hbtail
        · exact ⟨a, List.mem_cons_self a t, by rw [hb', hbb]⟩
        · obtain ⟨a', ha', hga'⟩ := ih bs hbs b hbtail
          exact ⟨a', List.mem_cons_of_mem a ha', hga'⟩

/-- C2, amended: every record a successful `parse` run returns has a
non-empty `number` field; the `name` field can be empty (the row `1番`
yields `{number := "1", name := ""}`), so only the number half of the
claimed invariant holds. -/
theorem parse_number_nonempty (doc : String) (res : List MemberRecord)
    (h : parse doc = .ok res) :
    res.all (fun r => !(r.number == "")) = true := by
  rw [parse] at h
  split at h
  · exact absurd h (by simp)
  · rename_i i hi
    rw [List.all_eq_true]
    intro r hr
    obtain ⟨f, _, hf⟩ := mapExcept_mem _ _ res h r hr
    have hne := (remove_core_ok _ r hf).1
    simp only [Bool.not_eq_true']
    rw [beq_eq_false_iff_ne]
    intro hempty
    exact hne (by rw [hempty])

/-- C2, witness: the amended theorem applied to a concrete document. -/
theorem parse_number_nonempty_witness :
    ([{ number := "1", name := "山田" }] : List MemberRecord).all
      (fun r => !(r.number == "")) = true :=
  parse_number_nonempty "出席議員\n1番山田君" [{ number := "1", name := "山田" }] (by decide)

/-- C6, amended: for every fragment on which per-fragment parsing succeeds,
the `number` field consists only of ASCII digits and the vertical-bar
character `'|'` (the regex class `[0-9|０-９]` of main.py line 28 admits a
literal `'|'`); full-width digits are converted to half-width. -/
theorem remove_number_digits_or_pipe (p : String) (r : MemberRecord)
    (h : remove_number_honorific p = .ok r) :
    r.number.data.all (fun c => c.isDigit || c == '|') = true := by
  rw [List.all_eq_true]
  intro c hc
  rcases (remove_core_ok p.data r h).2 c hc with hd | hp
  · simp [hd]
  · simp [hp]

/-- C6, witness: the amended theorem applied to a concrete fragment. -/
theorem remove_number_digits_or_pipe_witness :
    (("12" : String)).data.all (fun c => c.isDigit || c == '|') = true :=
  remove_number_digits_or_pipe "12番田中議員" { number := "12", name := "田中" } (by decide)

/-- C3, amended: on a conflict, only the exact (lowercased) label `cp932`
is preferred; the function then returns the uppercase literal `"CP932"` and
the warning carries both lowercased candidate labels. -/
theorem det_encoding_prefers_cp932 (c n p : String)
    (h : lowerAscii c ≠ lowerAscii n)
    (h2 : lowerAscii c = "cp932" ∨ lowerAscii n = "cp932") :
    det_encoding c n p = ([(lowerAscii c, lowerAscii n)], .ok "CP932") := by
  rw [det_encoding, if_pos h, if_pos h2]

/-- C3, witness: the amended theorem applied to a concrete label pair. -/
theorem det_encoding_prefers_cp932_witness :
    det_encoding "CP932" "utf-8" "x.html"
      = ([(lowerAscii "CP932", lowerAscii "utf-8")], .ok "CP932") :=
  det_encoding_prefers_cp932 "CP932" "utf-8" "x.html" (by decide) (Or.inl (by decide))

/-- C4, amended: when the lowercased detector labels conflict and neither
is `cp932`, `det_encoding` fails, but the error payload is the fixed
message together with the file path; the two candidate labels are carried
only by the emitted warning. -/
theorem det_encoding_conflict_error (c n p : String)
    (h : lowerAscii c ≠ lowerAscii n)
    (hc : lowerAscii c ≠ "cp932") (hn : lowerAscii n ≠ "cp932") :
    det_encoding c n p
      = ([(lowerAscii c, lowerAscii n)], .error (unsupportedMsg, p)) := by
  rw [det_encoding, if_pos h, if_neg (not_or.mpr ⟨hc, hn⟩)]

/-- C4, witness: the amended theorem applied to a concrete label pair. -/
theorem det_encoding_conflict_error_witness :
    det_encoding "utf-8" "euc_jp" "y.html"
      = ([(lowerAscii "utf-8", lowerAscii "euc_jp")], .error (unsupportedMsg, "y.html")) :=
  det_encoding_conflict_error "utf-8" "euc_jp" "y.html" (by decide) (by decide) (by decide)

/-- C10, amended: if the normalized document (after `<br>` stripping and
line-ending/blank-line normalization) contains no occurrence of `出席`,
`parse` terminates with the hard `noSection` error (Python: an
`AttributeError` on the failed `re.search`) and returns no roster.  The
claim as stated over the raw input fails, because `<br>` stripping can
create the marker (see the counterexample). -/
theorem parse_no_marker_error (doc : String)
    (h : findSubstr ['出', '席'] (normalizeDoc doc).data = none) :
    parse doc = .error ParseErr.noSection := by
  rw [parse, h]

/-- C10, witness: the amended theorem applied to a concrete document. -/
theorem parse_no_marker_error_witness :
    parse "こんにちは\n1番山田君" = .error ParseErr.noSection :=
  parse_no_marker_error "こんにちは\n1番山田君" (by decide)

end Scra
